import Mathlib

/-!
Shallow embedding of the ADGM Corporate Agent analysis core
(src/ADGM_Corporate_Agent/app_simple.py, with the identical classifier also
in document_parser.py): document-type classification, red-flag scanning,
completeness evaluation and status aggregation, together with theorems
settling the specification claims about them.

Text is modelled as a list of characters; Python str.lower is modelled on
the ASCII range; floats produced by the completeness arithmetic are
modelled as rationals (all reachable values are exact).
-/

/-- Document text, modelled as a list of characters. -/
abbrev DocText := List Char

/-- Python substring containment (pat in s): pat occurs contiguously in s. -/
def containsSub (pat : DocText) : DocText → Bool
  | [] => pat.isEmpty
  | c :: t => pat.isPrefixOf (c :: t) || containsSub pat t

/-- ASCII lower-casing of one character, as Python str.lower does on ASCII. -/
def lowerChar (c : Char) : Char :=
  if 'A' ≤ c ∧ c ≤ 'Z' then Char.ofNat (c.toNat + 32) else c

/-- Lower-casing of a whole text (text_content.lower()). -/
def lowerText (t : DocText) : DocText := t.map lowerChar

/-- The keyword catalog of SimpleDocumentParser._identify_document_type
(app_simple.py lines 62-93; document_parser.py lines 57-88 is identical),
in its declared order. -/
def docTypePatterns : List (String × List DocText) :=
  [("articles_of_association",
     ["articles of association".data, "company regulations".data,
      "share capital".data, "director powers".data]),
   ("board_resolution",
     ["board resolution".data, "resolved that".data,
      "directors resolve".data, "board of directors".data]),
   ("ubo_declaration",
     ["ultimate beneficial owner".data, "ubo declaration".data,
      "beneficial ownership".data, "25%".data]),
   ("employment_contract",
     ["employment contract".data, "terms of employment".data,
      "employee".data, "employer".data, "salary".data]),
   ("incorporation_form",
     ["incorporation".data, "application for registration".data,
      "company registration".data])]

/-- Python max(scores, key=scores.get) over an association list in insertion
order: the first entry with the strictly highest score wins; an empty dict
yields the unknown marker of the source. -/
def maxByGet : List (String × Nat) → String
  | [] => "unknown"
  | s :: rest => (rest.foldl (fun best q => if best.2 < q.2 then q else best) s).1

/-- SimpleDocumentParser._identify_document_type (app_simple.py lines 57-105):
score each type by the number of its keywords occurring in the lowered text,
keep positive scores in catalog order, return the first maximal one. -/
def identifyDocumentType (text_content : DocText) : String :=
  let text_lower := lowerText text_content
  let scores :=
    (docTypePatterns.map (fun p =>
       (p.1, (p.2.filter (fun kw => containsSub kw text_lower)).length))).filter
      (fun q => decide (0 < q.2))
  maxByGet scores

/-- The catalog order of document types, as declared in the source dict. -/
def typeOrder : List String :=
  ["articles_of_association", "board_resolution", "ubo_declaration",
   "employment_contract", "incorporation_form"]

/-- Refinement definition written after the specification words for the
classifier: score every type by counting its configured keywords occurring
case-insensitively in the text; if no type scores above zero return the
unknown marker, otherwise return the first type in the declared catalog
order attaining the maximum score. -/
def classifySpec (text : DocText) : String :=
  let scored := docTypePatterns.map (fun p =>
    (p.1, (p.2.filter (fun kw => containsSub kw (lowerText text))).length))
  let best := (scored.map Prod.snd).foldr max 0
  if best = 0 then "unknown"
  else
    match scored.find? (fun q => q.2 == best) with
    | some q => q.1
    | none => "unknown"

/-- The shapes of regular expressions appearing in SimpleValidator.red_flag_patterns,
embedded by their search semantics on the already lower-cased text:
a plain literal; a literal followed by .* and a second literal (the dot does
not cross a newline); a literal followed by negative lookaheads (?!.*n) whose
bodies likewise stay on one line. -/
inductive Pat where
  | lit (p : DocText)
  | litDotStar (p q : DocText)
  | litNegLA (p : DocText) (negs : List DocText)
deriving DecidableEq

/-- The maximal newline-free prefix of a text: the region a dot-star can span. -/
def firstLine (s : DocText) : DocText := s.takeWhile (fun c => c ≠ '\n')

/-- Whether a pattern matches at the start of the given suffix of the text. -/
def patMatchAt (pt : Pat) (rest : DocText) : Bool :=
  match pt with
  | .lit p => p.isPrefixOf rest
  | .litDotStar p q =>
      p.isPrefixOf rest && containsSub q (firstLine (rest.drop p.length))
  | .litNegLA p negs =>
      p.isPrefixOf rest &&
        negs.all (fun n => !(containsSub n (firstLine (rest.drop p.length))))

/-- re.search of a pattern over a text: a match may start at any position. -/
def reSearch (pt : Pat) : DocText → Bool
  | [] => patMatchAt pt []
  | c :: t => patMatchAt pt (c :: t) || reSearch pt t

/-- A detected red flag, as the dict built in SimpleValidator.validate_document. -/
structure RedFlag where
  type : String
  severity : String
  message : String
  suggestion : String
deriving DecidableEq

/-- One rule of the red-flag table: its patterns, severity and message. -/
structure FlagRule where
  patterns : List Pat
  severity : String
  message : String
deriving DecidableEq

/-- SimpleValidator.red_flag_patterns (app_simple.py lines 111-140), in its
declared order, with each regex rendered into its Pat shape:
r"abu dhabi court(?!.*global market)" is a literal with one negative
lookahead, r"(?i)governing law(?!.*adgm)(?!.*abu dhabi global market)" a
literal with two, r"signature.*blank" and r"_+.*signature" are
literal-dotstar-literal shapes (a single underscore suffices for "_+"
because .* also matches underscores), and the rest are plain literals. -/
def red_flag_patterns : List (String × FlagRule) :=
  [("jurisdiction_issues",
    { patterns :=
        [.lit "uae federal court".data,
         .lit "dubai court".data,
         .litNegLA "abu dhabi court".data ["global market".data],
         .lit "federal law".data,
         .lit "emirates law".data],
      severity := "high",
      message := "Incorrect jurisdiction - should reference ADGM Courts" }),
   ("missing_adgm_reference",
    { patterns :=
        [.litNegLA "governing law".data
           ["adgm".data, "abu dhabi global market".data]],
      severity := "high",
      message := "Missing ADGM governing law reference" }),
   ("incomplete_signatures",
    { patterns :=
        [.litDotStar "signature".data "blank".data,
         .lit "[signature]".data,
         .lit "sign here".data,
         .litDotStar "_".data "signature".data],
      severity := "medium",
      message := "Incomplete signature sections found" })]

/-- The red flag emitted for a matching pattern of a table rule
(app_simple.py lines 153-158). -/
def ruleFlag (r : String × FlagRule) : RedFlag :=
  { type := r.1, severity := r.2.severity, message := r.2.message,
    suggestion := "Review and correct this issue" }

/-- The standing flag emitted when neither regulator token occurs
(app_simple.py lines 161-167). -/
def adgm_standing_flag : RedFlag :=
  { type := "missing_adgm_reference", severity := "high",
    message := "Document does not reference ADGM or Abu Dhabi Global Market",
    suggestion := "Add proper ADGM governing law clause" }

/-- A parsed document record, with the fields validate_document and
generate_compliance_report consume. -/
structure DocInfo where
  file_name : String
  text_content : DocText
  document_type : String
deriving DecidableEq

/-- The per-document validation result of SimpleValidator.validate_document. -/
structure ValidationResult where
  document_name : String
  document_type : String
  red_flags : List RedFlag
  overall_status : String
deriving DecidableEq

/-- SimpleValidator.validate_document (app_simple.py lines 142-174): lower
the text, emit one flag per matching pattern of each table rule in declared
order, then append the standing regulator-reference flag when neither token
occurs, and derive the overall status from flag presence. -/
def validate_document (doc : DocInfo) : ValidationResult :=
  let text_lower := lowerText doc.text_content
  let table_flags := red_flag_patterns.flatMap (fun r =>
    r.2.patterns.filterMap (fun p =>
      if reSearch p text_lower then some (ruleFlag r) else none))
  let red_flags := table_flags ++
    (if !(containsSub "adgm".data text_lower) &&
        !(containsSub "abu dhabi global market".data text_lower)
     then [adgm_standing_flag] else [])
  { document_name := doc.file_name,
    document_type := doc.document_type,
    red_flags := red_flags,
    overall_status := if red_flags.isEmpty then "compliant" else "requires_attention" }

/-- Refinement definition written after the specification words for the
scanner: for each rule in the declared catalog order, for each of its
patterns in declared order, emit one RedFlag for the rule whenever the
pattern matches anywhere in the case-folded text, with no de-duplication. -/
def scanRedFlagsSpec (text : DocText) : List RedFlag :=
  red_flag_patterns.flatMap (fun r =>
    r.2.patterns.flatMap (fun p =>
      if reSearch p (lowerText text) then [ruleFlag r] else []))

/-- The required-document list of the company_incorporation entry of
SimpleComplianceChecker.process_requirements (app_simple.py lines 180-191). -/
def company_incorporation_required_docs : List String :=
  ["articles_of_association", "board_resolution", "incorporation_form",
   "ubo_declaration", "register_members_directors"]

/-- The set of document types observed in a batch (app_simple.py lines
195-196): the document_type fields with the unknown marker discarded,
modelled as a duplicate-free list. -/
def doc_types_of (documents : List DocInfo) : List String :=
  ((documents.map (fun d => d.document_type)).filter
    (fun t => t ≠ "unknown")).dedup

/-- Process selection (app_simple.py line 199): the batch is treated as a
company incorporation when any observed type lies in the signal set. -/
def identify_process (doc_types : List String) : Bool :=
  doc_types.any (fun dtype =>
    ["articles_of_association", "board_resolution", "ubo_declaration"].contains dtype)

/-- Present required documents (app_simple.py lines 209-214). -/
def present_docs_of (required_docs doc_types : List String) : List String :=
  if required_docs.isEmpty then doc_types
  else required_docs.filter (fun d => doc_types.contains d)

/-- Missing required documents (app_simple.py lines 211-215). -/
def missing_docs_of (required_docs doc_types : List String) : List String :=
  if required_docs.isEmpty then []
  else required_docs.filter (fun d => !(doc_types.contains d))

/-- Completion percentage (app_simple.py lines 212-216), as a rational. -/
def completion_pct_of (required_docs doc_types : List String) : ℚ :=
  if required_docs.isEmpty then 100
  else ((present_docs_of required_docs doc_types).length : ℚ) /
         (required_docs.length : ℚ) * 100

/-- Status aggregation (app_simple.py lines 222-230): ordered threshold
rules, first match wins; the third guard tests Python truthiness of the
missing-documents list. -/
def determine_status (completion_pct : ℚ) (high_issues : ℕ)
    (missing_docs : List String) : String :=
  if completion_pct < 60 then "incomplete"
  else if 2 < high_issues then "major_issues"
  else if 0 < high_issues ∨ missing_docs ≠ [] then "requires_attention"
  else "ready_for_submission"

/-- The completeness block of a compliance report. -/
structure Completeness where
  documents_uploaded : ℕ
  required_documents : ℕ
  present_documents : List String
  missing_documents : List String
  completion_percentage : ℚ
deriving DecidableEq

/-- The issues summary block of a compliance report. -/
structure IssuesSummary where
  total_red_flags : ℕ
  high_severity : ℕ
deriving DecidableEq

/-- The compliance report returned by generate_compliance_report. -/
structure ComplianceReport where
  process_type : String
  process_name : String
  overall_status : String
  completeness : Completeness
  issues_summary : IssuesSummary
  recommendations : List String
deriving DecidableEq

/-- SimpleComplianceChecker.generate_compliance_report (app_simple.py lines
193-252). -/
def generate_compliance_report (documents : List DocInfo)
    (validations : List ValidationResult) : ComplianceReport :=
  let doc_types := doc_types_of documents
  let isIncorp := identify_process doc_types
  let required_docs :=
    if isIncorp then company_incorporation_required_docs else []
  let present_docs := present_docs_of required_docs doc_types
  let missing_docs := missing_docs_of required_docs doc_types
  let completion_pct := completion_pct_of required_docs doc_types
  let high_issues :=
    (validations.map (fun v =>
      (v.red_flags.filter (fun rf => rf.severity == "high")).length)).sum
  { process_type := if isIncorp then "company_incorporation" else "general_review",
    process_name := if isIncorp then "Company Incorporation" else "General Document Review",
    overall_status := determine_status completion_pct high_issues missing_docs,
    completeness :=
      { documents_uploaded := documents.length,
        required_documents := required_docs.length,
        present_documents := present_docs,
        missing_documents := missing_docs,
        completion_percentage := completion_pct },
    issues_summary :=
      { total_red_flags := (validations.map (fun v => v.red_flags.length)).sum,
        high_severity := high_issues },
    recommendations :=
      ["Review flagged issues and make necessary corrections",
       "Ensure all required documents are provided",
       "Verify ADGM compliance before submission"] }

/-- The front of the missing-documents sequence displayed by
ADGMCorporateAgent._generate_status_message (app_simple.py line 509). -/
def missingTop3 (report : ComplianceReport) : List String :=
  report.completeness.missing_documents.take 3

/-! ## Theorems settling the claims -/

/-- C1: the status aggregation returns exactly one of the four statuses by
first-match-wins ordered rules: completion below 60 yields incomplete
regardless of the issue counts; otherwise more than two high-severity flags
yields major_issues; otherwise any high-severity flag or any missing
document yields requires_attention; otherwise ready_for_submission. -/
theorem c1_status_ordering (c : ℚ) (h : ℕ) (m : List String) :
    determine_status c h m ∈
      ["incomplete", "major_issues", "requires_attention", "ready_for_submission"] ∧
    (determine_status c h m = "incomplete" ↔ c < 60) ∧
    (determine_status c h m = "major_issues" ↔ ¬ c < 60 ∧ 2 < h) ∧
    (determine_status c h m = "requires_attention" ↔
      ¬ c < 60 ∧ ¬ 2 < h ∧ (0 < h ∨ 0 < m.length)) ∧
    (determine_status c h m = "ready_for_submission" ↔
      ¬ c < 60 ∧ h = 0 ∧ m.length = 0) := by
  unfold determine_status
  have hm : m ≠ [] ↔ 0 < m.length := by
    cases m <;> simp
  split_ifs with h1 h2 h3 <;>
    refine ⟨by simp, ?_, ?_, ?_, ?_⟩ <;>
    simp_all <;> omega

/-- C6: the overall status of a validation result is requires_attention
exactly when its red-flag sequence is non-empty, and compliant otherwise. -/
theorem c6_overall_status_iff (doc : DocInfo) :
    ((validate_document doc).overall_status = "requires_attention" ↔
      (validate_document doc).red_flags ≠ []) ∧
    ((validate_document doc).overall_status = "compliant" ↔
      (validate_document doc).red_flags = []) := by
  unfold validate_document
  dsimp only
  generalize (red_flag_patterns.flatMap (fun r =>
    r.2.patterns.filterMap (fun p =>
      if reSearch p (lowerText doc.text_content) then some (ruleFlag r) else none)) ++
    (if !(containsSub "adgm".data (lowerText doc.text_content)) &&
        !(containsSub "abu dhabi global market".data (lowerText doc.text_content))
     then [adgm_standing_flag] else [])) = rf
  cases rf <;> simp

/-- C8: on an empty batch the compliance report is produced without failure,
with the general-review fallback (empty requirement list), zero documents,
completion 100, zero red flags, and status ready_for_submission. -/
theorem c8_empty_batch :
    (generate_compliance_report [] []).process_type = "general_review" ∧
    (generate_compliance_report [] []).completeness.documents_uploaded = 0 ∧
    (generate_compliance_report [] []).completeness.required_documents = 0 ∧
    (generate_compliance_report [] []).completeness.missing_documents = [] ∧
    (generate_compliance_report [] []).completeness.completion_percentage = 100 ∧
    (generate_compliance_report [] []).issues_summary.total_red_flags = 0 ∧
    (generate_compliance_report [] []).overall_status = "ready_for_submission" := by
  decide

/-! ## Classifier lemmas -/

/-- The fold inside maxByGet is the first entry attaining the maximum score. -/
theorem find?_max_foldl (a : String × ℕ) (l : List (String × ℕ)) :
    (a :: l).find? (fun q => q.2 == ((a :: l).map Prod.snd).foldr max 0) =
      some (l.foldl (fun best q => if best.2 < q.2 then q else best) a) := by
  induction l generalizing a with
  | nil =>
    simp [List.find?_cons]
  | cons b t ih =>
    by_cases hab : a.2 < b.2
    · have hble : b.2 ≤ ((b :: t).map Prod.snd).foldr max 0 := by
        simp only [List.map_cons, List.foldr_cons]
        exact le_max_left _ _
      have hM : ((a :: b :: t).map Prod.snd).foldr max 0 =
          ((b :: t).map Prod.snd).foldr max 0 := by
        simp only [List.map_cons, List.foldr_cons]
        exact max_eq_right (le_trans (le_of_lt hab) (le_max_left _ _))
      rw [hM]
      have hfold : (b :: t).foldl (fun best q => if best.2 < q.2 then q else best) a =
          t.foldl (fun best q => if best.2 < q.2 then q else best) b := by
        simp only [List.foldl_cons]
        rw [if_pos hab]
      rw [hfold]
      have hane : ((fun (q : String × ℕ) => q.2 == ((b :: t).map Prod.snd).foldr max 0) a)
          = false :=
        beq_eq_false_iff_ne.mpr (Nat.ne_of_lt (lt_of_lt_of_le hab hble))
      rw [List.find?_cons_of_neg _ (by simpa using hane)]
      exact ih b
    · have hb : b.2 ≤ a.2 := by omega
      have hM : ((a :: b :: t).map Prod.snd).foldr max 0 =
          ((a :: t).map Prod.snd).foldr max 0 := by
        simp only [List.map_cons, List.foldr_cons]
        rw [← max_assoc]
        congr 1
        exact max_eq_left hb
      have hfold : (b :: t).foldl (fun best q => if best.2 < q.2 then q else best) a =
          t.foldl (fun best q => if best.2 < q.2 then q else best) a := by
        simp only [List.foldl_cons]
        rw [if_neg hab]
      rw [hfold, hM]
      have ihx := ih a
      by_cases ha : a.2 = ((a :: t).map Prod.snd).foldr max 0
      · rw [List.find?_cons_of_pos _ (by simpa using beq_iff_eq.mpr ha)] at ihx ⊢
        exact ihx
      · have hane : ((fun (q : String × ℕ) =>
            q.2 == ((a :: t).map Prod.snd).foldr max 0) a) = false :=
          beq_eq_false_iff_ne.mpr ha
        rw [List.find?_cons_of_neg _ (by simpa using hane)] at ihx ⊢
        have halt : a.2 < ((a :: t).map Prod.snd).foldr max 0 :=
          lt_of_le_of_ne (by simp only [List.map_cons, List.foldr_cons]; exact le_max_left _ _) ha
        have hbne : ((fun (q : String × ℕ) =>
            q.2 == ((a :: t).map Prod.snd).foldr max 0) b) = false :=
          beq_eq_false_iff_ne.mpr (Nat.ne_of_lt (lt_of_le_of_lt hb halt))
        rw [List.find?_cons_of_neg _ (by simpa using hbne)]
        exact ihx

/-- A fold maximum is zero exactly when every score is zero. -/
theorem foldrMax_eq_zero_iff (l : List (String × ℕ)) :
    (l.map Prod.snd).foldr max 0 = 0 ↔ ∀ q ∈ l, q.2 = 0 := by
  induction l with
  | nil => simp
  | cons a t ih => simp [Nat.max_eq_zero_iff, ih, and_comm]

/-- Dropping zero-score entries does not change the fold maximum. -/
theorem foldrMax_filter_pos (l : List (String × ℕ)) :
    ((l.filter (fun q => decide (0 < q.2))).map Prod.snd).foldr max 0 =
      (l.map Prod.snd).foldr max 0 := by
  induction l with
  | nil => rfl
  | cons a t ih =>
    by_cases h : 0 < a.2
    · simp [List.filter_cons, h, ih]
    · have ha : a.2 = 0 := by omega
      simp [List.filter_cons, h, ih, ha]

/-- Searching for a positive score ignores the zero-score entries. -/
theorem find?_filter_pos (l : List (String × ℕ)) (M : ℕ) (hM : 0 < M) :
    (l.filter (fun q => decide (0 < q.2))).find? (fun q => q.2 == M) =
      l.find? (fun q => q.2 == M) := by
  induction l with
  | nil => rfl
  | cons a t ih =>
    by_cases h : 0 < a.2
    · rw [List.filter_cons_of_pos (by simp [h])]
      by_cases he : a.2 = M
      · rw [List.find?_cons_of_pos _ (by simp [he]), List.find?_cons_of_pos _ (by simp [he])]
      · rw [List.find?_cons_of_neg _ (by simp [he]), List.find?_cons_of_neg _ (by simp [he])]
        exact ih
    · have ha : a.2 = 0 := by omega
      rw [List.filter_cons_of_neg (by simp [h])]
      rw [List.find?_cons_of_neg _ (by simp [ha]; omega)]
      exact ih

/-- C2: the classifier scores each catalog type by the number of its
keywords occurring case-insensitively in the text, excludes zero scores,
returns the type with the strictly highest score, returns the unknown
marker when no type scores above zero, and breaks ties by the catalog
declared order (which is exactly typeOrder). -/
theorem c2_classifier_refinement :
    (∀ text : DocText, identifyDocumentType text = classifySpec text) ∧
    docTypePatterns.map Prod.fst = typeOrder := by
  refine ⟨?_, by decide⟩
  intro text
  unfold identifyDocumentType classifySpec
  dsimp only
  set scored := docTypePatterns.map (fun p =>
    (p.1, (p.2.filter (fun kw => containsSub kw (lowerText text))).length)) with hscored
  set M := (scored.map Prod.snd).foldr max 0 with hMdef
  by_cases hz : M = 0
  · have hall : ∀ q ∈ scored, q.2 = 0 := (foldrMax_eq_zero_iff scored).1 hz
    have hf : scored.filter (fun q => decide (0 < q.2)) = [] :=
      List.filter_eq_nil_iff.2 (fun q hq => by simp [hall q hq])
    rw [hf, if_pos hz]
    rfl
  · rw [if_neg hz]
    rw [← find?_filter_pos scored M (Nat.pos_of_ne_zero hz)]
    have hMf : ((scored.filter (fun q => decide (0 < q.2))).map Prod.snd).foldr max 0 = M :=
      foldrMax_filter_pos scored
    cases hc : scored.filter (fun q => decide (0 < q.2)) with
    | nil => rfl
    | cons a ft =>
      rw [hc] at hMf
      have hfind := find?_max_foldl a ft
      rw [hMf] at hfind
      rw [hfind]
      rfl

/-! ## Scanner lemmas -/

/-- Every flag produced by the regex table is the flag of one of its rules. -/
theorem table_flag_shape {f : RedFlag} {tl : DocText}
    (hf : f ∈ red_flag_patterns.flatMap (fun r =>
      r.2.patterns.filterMap (fun p =>
        if reSearch p tl then some (ruleFlag r) else none))) :
    ∃ r ∈ red_flag_patterns, f = ruleFlag r := by
  rw [List.mem_flatMap] at hf
  obtain ⟨r, hr, hf2⟩ := hf
  rw [List.mem_filterMap] at hf2
  obtain ⟨p, hp, hsome⟩ := hf2
  refine ⟨r, hr, ?_⟩
  by_cases h : reSearch p tl = true
  · rw [if_pos h] at hsome
    exact (Option.some.inj hsome).symm
  · rw [if_neg h] at hsome
    exact absurd hsome (by simp)

/-- C3 counterexample: on the text "adgm governing law" the validator emits
a red flag of category missing_adgm_reference (from the governing-law regex
rule) even though the token adgm does occur in the text, refuting the
claimed equivalence for that category. -/
theorem c3_counterexample :
    (∃ f ∈ (validate_document
        { file_name := "doc.docx", text_content := "adgm governing law".data,
          document_type := "unknown" }).red_flags,
      f.type = "missing_adgm_reference") ∧
    containsSub "adgm".data (lowerText "adgm governing law".data) = true := by
  decide

/-- C3 amended: the standing (non-regex) rule flag of category
missing_adgm_reference is emitted by validate_document if and only if
neither the token adgm nor the token abu dhabi global market occurs
case-insensitively in the text, and that flag has severity high. (The
regex-table rule of the same category can additionally fire when a
governing-law phrase lacks a following regulator reference.) -/
theorem c3_standing_flag_iff (doc : DocInfo) :
    (adgm_standing_flag ∈ (validate_document doc).red_flags ↔
      containsSub "adgm".data (lowerText doc.text_content) = false ∧
      containsSub "abu dhabi global market".data (lowerText doc.text_content) = false) ∧
    adgm_standing_flag.severity = "high" := by
  constructor
  · unfold validate_document
    dsimp only
    constructor
    · intro hmem
      rcases List.mem_append.1 hmem with htab | hite
      · exfalso
        obtain ⟨r, hr, heq⟩ := table_flag_shape htab
        simp only [red_flag_patterns, List.mem_cons, List.not_mem_nil, or_false] at hr
        rcases hr with h | h | h <;> subst h <;> exact absurd heq (by decide)
      · by_cases hcond : (!(containsSub "adgm".data (lowerText doc.text_content)) &&
            !(containsSub "abu dhabi global market".data (lowerText doc.text_content))) = true
        · simpa only [Bool.and_eq_true, Bool.not_eq_true'] using hcond
        · rw [if_neg hcond] at hite
          cases hite
    · rintro ⟨ha, hb⟩
      apply List.mem_append.2
      right
      rw [if_pos (by simp [ha, hb])]
      exact List.mem_singleton.2 rfl
  · rfl

/-- filterMap of an if-some-none equals flatMap of the if-singleton. -/
theorem filterMap_ite_flag (tl : DocText) (fl : RedFlag) :
    ∀ l : List Pat,
      l.filterMap (fun p => if reSearch p tl then some fl else none) =
      l.flatMap (fun p => if reSearch p tl then [fl] else []) := by
  intro l
  induction l with
  | nil => rfl
  | cons a t ih =>
    by_cases h : reSearch a tl = true
    · simp [List.filterMap_cons, List.flatMap_cons, h, ih]
    · simp [List.filterMap_cons, List.flatMap_cons, h, ih]

/-- C5: the validator emits flags by walking the rule table in its declared
order and each rule's patterns in their declared order, one flag per
matching pattern with no de-duplication, the output order being this
evaluation order, with the standing regulator flag appended last; on the
text "dubai court applies federal law" two patterns of the jurisdiction
rule match and two identical jurisdiction flags are emitted, followed by
the standing flag. -/
theorem c5_scan_order :
    (∀ doc : DocInfo,
      (validate_document doc).red_flags =
        scanRedFlagsSpec doc.text_content ++
          (if !(containsSub "adgm".data (lowerText doc.text_content)) &&
              !(containsSub "abu dhabi global market".data (lowerText doc.text_content))
           then [adgm_standing_flag] else [])) ∧
    (validate_document { file_name := "x.docx",
                         text_content := "dubai court applies federal law".data,
                         document_type := "unknown" }).red_flags =
      [{ type := "jurisdiction_issues", severity := "high",
         message := "Incorrect jurisdiction - should reference ADGM Courts",
         suggestion := "Review and correct this issue" },
       { type := "jurisdiction_issues", severity := "high",
         message := "Incorrect jurisdiction - should reference ADGM Courts",
         suggestion := "Review and correct this issue" },
       adgm_standing_flag] := by
  constructor
  · intro doc
    unfold validate_document scanRedFlagsSpec
    dsimp only
    congr 1
    have hfun : (fun (r : String × FlagRule) =>
        r.2.patterns.filterMap (fun p =>
          if reSearch p (lowerText doc.text_content) then some (ruleFlag r) else none)) =
        (fun (r : String × FlagRule) =>
          r.2.patterns.flatMap (fun p =>
            if reSearch p (lowerText doc.text_content) then [ruleFlag r] else [])) :=
      funext fun r => filterMap_ite_flag (lowerText doc.text_content) (ruleFlag r) r.2.patterns
    rw [hfun]
  · decide

/-! ## Completeness lemmas -/

/-- Membership in the observed-type set of a batch. -/
theorem mem_doc_types_of {x : String} {ds : List DocInfo} :
    x ∈ doc_types_of ds ↔ (∃ d ∈ ds, d.document_type = x) ∧ x ≠ "unknown" := by
  unfold doc_types_of
  simp [List.mem_dedup, List.mem_filter, List.mem_map]

/-- Appending one document to a batch extends the observed-type set by at
most its type. -/
theorem mem_doc_types_of_append {x : String} {ds : List DocInfo} {d : DocInfo} :
    x ∈ doc_types_of (ds ++ [d]) ↔
      x ∈ doc_types_of ds ∨ (x = d.document_type ∧ x ≠ "unknown") := by
  simp only [mem_doc_types_of, List.mem_append, List.mem_singleton]
  constructor
  · rintro ⟨⟨e, he | he, hx⟩, hu⟩
    · exact Or.inl ⟨⟨e, he, hx⟩, hu⟩
    · subst he
      exact Or.inr ⟨hx.symm, hu⟩
  · rintro (⟨⟨e, he, hx⟩, hu⟩ | ⟨hx, hu⟩)
    · exact ⟨⟨e, Or.inl he, hx⟩, hu⟩
    · exact ⟨⟨d, Or.inr rfl, hx.symm⟩, hu⟩

/-- Process selection depends only on the membership of the observed set. -/
theorem identify_process_true_iff (dt : List String) :
    identify_process dt = true ↔
      ∃ x ∈ dt, x = "articles_of_association" ∨ x = "board_resolution" ∨
        x = "ubo_declaration" := by
  unfold identify_process
  simp [List.any_eq_true]

/-- Python membership tests agree on membership-equal lists. -/
theorem contains_congr {t1 t2 : List String} (h : ∀ x, x ∈ t1 ↔ x ∈ t2)
    (a : String) : t1.contains a = t2.contains a := by
  by_cases hm : a ∈ t1
  · have hm2 : a ∈ t2 := (h a).1 hm
    simp [List.elem_eq_mem, hm, hm2]
  · have hm2 : a ∉ t2 := fun hc => hm ((h a).2 hc)
    simp [List.elem_eq_mem, hm, hm2]

/-- Process selection agrees on membership-equal observed sets. -/
theorem identify_process_congr {t1 t2 : List String}
    (h : ∀ x, x ∈ t1 ↔ x ∈ t2) :
    identify_process t1 = identify_process t2 := by
  cases h1 : identify_process t1 <;> cases h2 : identify_process t2 <;> try rfl
  · exfalso
    rw [identify_process_true_iff] at h2
    obtain ⟨x, hx, hd⟩ := h2
    have := (identify_process_true_iff t1).2 ⟨x, (h x).2 hx, hd⟩
    rw [h1] at this
    cases this
  · exfalso
    rw [identify_process_true_iff] at h1
    obtain ⟨x, hx, hd⟩ := h1
    have := (identify_process_true_iff t2).2 ⟨x, (h x).1 hx, hd⟩
    rw [h2] at this
    cases this

/-- The requirement list selected for a batch (app_simple.py lines 199-206):
the company-incorporation checklist when the signal set is triggered, else
the empty general-review fallback. -/
def selected_required_docs (documents : List DocInfo) : List String :=
  if identify_process (doc_types_of documents) then
    company_incorporation_required_docs
  else []

/-- Projection: the process type of a report. -/
theorem report_process_type_eq (ds : List DocInfo) (vs : List ValidationResult) :
    (generate_compliance_report ds vs).process_type =
      if identify_process (doc_types_of ds) then "company_incorporation"
      else "general_review" := rfl

/-- Projection: the present documents of a report. -/
theorem report_present_eq (ds : List DocInfo) (vs : List ValidationResult) :
    (generate_compliance_report ds vs).completeness.present_documents =
      present_docs_of (selected_required_docs ds) (doc_types_of ds) := rfl

/-- Projection: the missing documents of a report. -/
theorem report_missing_eq (ds : List DocInfo) (vs : List ValidationResult) :
    (generate_compliance_report ds vs).completeness.missing_documents =
      missing_docs_of (selected_required_docs ds) (doc_types_of ds) := rfl

/-- Projection: the completion percentage of a report. -/
theorem report_completion_eq (ds : List DocInfo) (vs : List ValidationResult) :
    (generate_compliance_report ds vs).completeness.completion_percentage =
      completion_pct_of (selected_required_docs ds) (doc_types_of ds) := rfl

/-- Projection: the overall status of a report. -/
theorem report_status_eq (ds : List DocInfo) (vs : List ValidationResult) :
    (generate_compliance_report ds vs).overall_status =
      determine_status (completion_pct_of (selected_required_docs ds) (doc_types_of ds))
        ((vs.map (fun v =>
          (v.red_flags.filter (fun rf => rf.severity == "high")).length)).sum)
        (missing_docs_of (selected_required_docs ds) (doc_types_of ds)) := rfl

/-- Membership in the present list for a non-empty requirement list. -/
theorem mem_present_docs_of {R dt : List String} (hR : R.isEmpty = false)
    (x : String) : x ∈ present_docs_of R dt ↔ x ∈ R ∧ x ∈ dt := by
  unfold present_docs_of
  rw [if_neg (by simp [hR])]
  simp [List.mem_filter, List.elem_eq_mem]

/-- Membership in the missing list for a non-empty requirement list. -/
theorem mem_missing_docs_of {R dt : List String} (hR : R.isEmpty = false)
    (x : String) : x ∈ missing_docs_of R dt ↔ x ∈ R ∧ x ∉ dt := by
  unfold missing_docs_of
  rw [if_neg (by simp [hR])]
  simp [List.mem_filter, List.elem_eq_mem]

/-- The completion formula for a non-empty requirement list. -/
theorem completion_pct_of_nonempty {R dt : List String} (hR : R.isEmpty = false) :
    completion_pct_of R dt =
      ((present_docs_of R dt).length : ℚ) / (R.length : ℚ) * 100 := by
  unfold completion_pct_of
  rw [if_neg (by simp [hR])]

/-- A batch of two documents typed articles_of_association and
board_resolution, as in the worked example of the specification. -/
def twoDocBatch : List DocInfo :=
  [{ file_name := "a.docx", text_content := [],
     document_type := "articles_of_association" },
   { file_name := "b.docx", text_content := [],
     document_type := "board_resolution" }]

/-- C4: with a non-empty selected requirement list R, the present list is
R intersected with the observed types, the missing list is R minus the
observed types, and completion is 100 times the present count over the
required count; with an empty R the present list is the observed set, the
missing list is empty and completion is 100; in particular the two-document
example batch under the company-incorporation profile yields completion 40
and the three expected missing documents. -/
theorem c4_completeness_math :
    (∀ (documents : List DocInfo) (validations : List ValidationResult),
      (selected_required_docs documents ≠ [] →
        (∀ t, t ∈ (generate_compliance_report documents validations).completeness.present_documents ↔
           t ∈ selected_required_docs documents ∧ t ∈ doc_types_of documents) ∧
        (∀ t, t ∈ (generate_compliance_report documents validations).completeness.missing_documents ↔
           t ∈ selected_required_docs documents ∧ t ∉ doc_types_of documents) ∧
        (generate_compliance_report documents validations).completeness.completion_percentage =
          100 * ((generate_compliance_report documents validations).completeness.present_documents.length : ℚ) /
            ((selected_required_docs documents).length : ℚ)) ∧
      (selected_required_docs documents = [] →
        (∀ t, t ∈ (generate_compliance_report documents validations).completeness.present_documents ↔
           t ∈ doc_types_of documents) ∧
        (generate_compliance_report documents validations).completeness.missing_documents = [] ∧
        (generate_compliance_report documents validations).completeness.completion_percentage = 100)) ∧
    ((generate_compliance_report twoDocBatch []).completeness.completion_percentage = 40 ∧
     (generate_compliance_report twoDocBatch []).completeness.missing_documents =
       ["incorporation_form", "ubo_declaration", "register_members_directors"]) := by
  constructor
  · intro documents validations
    constructor
    · intro hRne
      have hR : (selected_required_docs documents).isEmpty = false := by
        cases h : selected_required_docs documents with
        | nil => exact absurd h hRne
        | cons a t => rfl
      refine ⟨?_, ?_, ?_⟩
      · intro t
        rw [report_present_eq]
        exact mem_present_docs_of hR t
      · intro t
        rw [report_missing_eq]
        exact mem_missing_docs_of hR t
      · rw [report_completion_eq, report_present_eq, completion_pct_of_nonempty hR]
        ring
    · intro hRe
      rw [report_present_eq, report_missing_eq, report_completion_eq, hRe]
      exact ⟨fun t => Iff.rfl, rfl, rfl⟩
  · constructor
    · rw [report_completion_eq,
        show selected_required_docs twoDocBatch = company_incorporation_required_docs from rfl,
        completion_pct_of_nonempty (by decide),
        show present_docs_of company_incorporation_required_docs (doc_types_of twoDocBatch) =
          ["articles_of_association", "board_resolution"] from rfl]
      norm_num [company_incorporation_required_docs]
    · decide

/-- C4 witness: the completion formula instantiated on the two-document
example batch. -/
theorem c4_witness :
    (generate_compliance_report twoDocBatch []).completeness.completion_percentage =
      100 * ((generate_compliance_report twoDocBatch []).completeness.present_documents.length : ℚ) /
        ((selected_required_docs twoDocBatch).length : ℚ) :=
  ((c4_completeness_math.1 twoDocBatch []).1 (by decide)).2.2

/-- C9: whenever the company-incorporation profile is selected, the missing
list is an order-preserving sublist of the declared requirement list (and,
being duplicate-free, its order is exactly the declared order restricted to
the missing members), its members are exactly the required types not
observed, and the top-3 front displayed by the status message is a prefix
of it. -/
theorem c9_missing_order (documents : List DocInfo)
    (validations : List ValidationResult)
    (hproc : (generate_compliance_report documents validations).process_type =
      "company_incorporation") :
    (generate_compliance_report documents validations).completeness.missing_documents.Sublist
      company_incorporation_required_docs ∧
    (∀ t, t ∈ (generate_compliance_report documents validations).completeness.missing_documents ↔
       t ∈ company_incorporation_required_docs ∧ t ∉ doc_types_of documents) ∧
    (missingTop3 (generate_compliance_report documents validations)).Sublist
      (generate_compliance_report documents validations).completeness.missing_documents := by
  have hip : identify_process (doc_types_of documents) = true := by
    by_contra h
    have hb : identify_process (doc_types_of documents) = false := by
      simpa using h
    rw [report_process_type_eq, hb] at hproc
    simp at hproc
  have hsel : selected_required_docs documents = company_incorporation_required_docs := by
    unfold selected_required_docs
    rw [hip]
    rfl
  refine ⟨?_, ?_, ?_⟩
  · rw [report_missing_eq, hsel]
    unfold missing_docs_of
    rw [if_neg (by decide)]
    exact List.filter_sublist _
  · intro t
    rw [report_missing_eq, hsel]
    exact mem_missing_docs_of (by decide) t
  · unfold missingTop3
    exact List.take_sublist 3 _

/-- C9 witness: the missing list of the two-document example batch is an
order-preserving sublist of the declared requirement list. -/
theorem c9_witness :
    (generate_compliance_report twoDocBatch []).completeness.missing_documents.Sublist
      company_incorporation_required_docs :=
  (c9_missing_order twoDocBatch [] (by decide)).1

/-- Completion percentage depends only on the membership of the observed set. -/
theorem completion_pct_congr {R t1 t2 : List String}
    (h : ∀ x, x ∈ t1 ↔ x ∈ t2) :
    completion_pct_of R t1 = completion_pct_of R t2 := by
  unfold completion_pct_of
  by_cases hR : R.isEmpty = true
  · rw [if_pos hR, if_pos hR]
  · rw [if_neg hR, if_neg hR]
    have hp : present_docs_of R t1 = present_docs_of R t2 := by
      unfold present_docs_of
      rw [if_neg hR, if_neg hR]
      exact List.filter_congr (fun a _ => contains_congr h a)
    rw [hp]

/-- A single-document batch typed incorporation_form: it does not trigger
the incorporation signal set, so the general-review fallback reports
completion 100. -/
def oneIncorpBatch : List DocInfo :=
  [{ file_name := "i.docx", text_content := [],
     document_type := "incorporation_form" }]

/-- A document typed articles_of_association. -/
def aoaDoc : DocInfo :=
  { file_name := "a.docx", text_content := [],
    document_type := "articles_of_association" }

/-- C7 counterexample: adding an articles_of_association document to a
batch holding only an incorporation_form document switches the selected
profile from general review (completion 100) to company incorporation
(completion 40), so completion_percentage strictly decreases under adding
a document, refuting the claimed non-decreasing monotonicity. -/
theorem c7_counterexample :
    (generate_compliance_report (oneIncorpBatch ++ [aoaDoc]) []).completeness.completion_percentage <
      (generate_compliance_report oneIncorpBatch []).completeness.completion_percentage := by
  rw [report_completion_eq, report_completion_eq]
  rw [show selected_required_docs (oneIncorpBatch ++ [aoaDoc]) =
        company_incorporation_required_docs from rfl]
  rw [show selected_required_docs oneIncorpBatch = ([] : List String) from rfl]
  rw [completion_pct_of_nonempty (by decide)]
  rw [show present_docs_of company_incorporation_required_docs
        (doc_types_of (oneIncorpBatch ++ [aoaDoc])) =
        ["articles_of_association", "incorporation_form"] from rfl]
  rw [show completion_pct_of [] (doc_types_of oneIncorpBatch) = 100 from rfl]
  norm_num [company_incorporation_required_docs]

/-- C7 amended: adding a document whose type is in the missing set strictly
shrinks the missing list and strictly raises the completion percentage, and
adding a document whose type is already present leaves the completion
percentage unchanged; the general non-decreasing monotonicity holds only
when the addition does not change the selected process profile (it fails
when a new document switches general review to company incorporation, as
the counterexample shows). -/
theorem c7_monotonicity :
    (∀ (documents : List DocInfo) (validations : List ValidationResult) (d : DocInfo),
      d.document_type ∈ (generate_compliance_report documents validations).completeness.missing_documents →
      ((generate_compliance_report (documents ++ [d]) validations).completeness.missing_documents.length <
         (generate_compliance_report documents validations).completeness.missing_documents.length ∧
       (generate_compliance_report documents validations).completeness.completion_percentage <
         (generate_compliance_report (documents ++ [d]) validations).completeness.completion_percentage)) ∧
    (∀ (documents : List DocInfo) (validations : List ValidationResult) (d : DocInfo),
      d.document_type ∈ (generate_compliance_report documents validations).completeness.present_documents →
      (generate_compliance_report (documents ++ [d]) validations).completeness.completion_percentage =
        (generate_compliance_report documents validations).completeness.completion_percentage) ∧
    (∀ (documents : List DocInfo) (validations : List ValidationResult) (d : DocInfo),
      (generate_compliance_report (documents ++ [d]) validations).process_type =
        (generate_compliance_report documents validations).process_type →
      (generate_compliance_report documents validations).completeness.completion_percentage ≤
        (generate_compliance_report (documents ++ [d]) validations).completeness.completion_percentage) := by
  refine ⟨?_, ?_, ?_⟩
  · -- adding a missing-typed document
    intro documents validations d hmem
    rw [report_missing_eq] at hmem
    by_cases hip : identify_process (doc_types_of documents) = true
    case neg =>
      have hb : identify_process (doc_types_of documents) = false := by simpa using hip
      have hsel0 : selected_required_docs documents = [] := by
        simp [selected_required_docs, hb]
      rw [hsel0] at hmem
      cases hmem
    case pos =>
    have hsel : selected_required_docs documents = company_incorporation_required_docs := by
      simp [selected_required_docs, hip]
    rw [hsel] at hmem
    obtain ⟨hinR, hnotdt⟩ := (mem_missing_docs_of (by decide) _).1 hmem
    have hne_u : d.document_type ≠ "unknown" :=
      (by decide : ∀ x ∈ company_incorporation_required_docs, x ≠ "unknown") _ hinR
    have hdt' : ∀ x, x ∈ doc_types_of (documents ++ [d]) ↔
        x ∈ doc_types_of documents ∨ x = d.document_type := by
      intro x
      rw [mem_doc_types_of_append]
      constructor
      · rintro (h | ⟨h, _⟩)
        · exact Or.inl h
        · exact Or.inr h
      · rintro (h | h)
        · exact Or.inl h
        · exact Or.inr ⟨h, h ▸ hne_u⟩
    have hip' : identify_process (doc_types_of (documents ++ [d])) = true := by
      rw [identify_process_true_iff] at hip ⊢
      obtain ⟨x, hx, hd3⟩ := hip
      exact ⟨x, (hdt' x).2 (Or.inl hx), hd3⟩
    have hsel' : selected_required_docs (documents ++ [d]) =
        company_incorporation_required_docs := by
      simp [selected_required_docs, hip']
    have hmono : ∀ a : String,
        (!((doc_types_of (documents ++ [d])).contains a)) = true →
        (!((doc_types_of documents).contains a)) = true := by
      intro a ha
      simp only [Bool.not_eq_true', List.elem_eq_mem, decide_eq_false_iff_not] at ha ⊢
      intro hmem0
      exact ha ((hdt' a).2 (Or.inl hmem0))
    have hsubmiss :
        List.Sublist
          (missing_docs_of company_incorporation_required_docs (doc_types_of (documents ++ [d])))
          (missing_docs_of company_incorporation_required_docs (doc_types_of documents)) := by
      unfold missing_docs_of
      rw [if_neg (by decide), if_neg (by decide)]
      exact List.monotone_filter_right _ hmono
    have hdm' : d.document_type ∉
        missing_docs_of company_incorporation_required_docs (doc_types_of (documents ++ [d])) := by
      intro hx
      obtain ⟨_, hnd⟩ := (mem_missing_docs_of (by decide) _).1 hx
      exact hnd ((hdt' _).2 (Or.inr rfl))
    constructor
    · rw [report_missing_eq, report_missing_eq, hsel, hsel']
      refine lt_of_le_of_ne hsubmiss.length_le ?_
      intro hlen
      rw [hsubmiss.eq_of_length hlen] at hdm'
      exact hdm' hmem
    · rw [report_completion_eq, report_completion_eq, hsel, hsel',
        completion_pct_of_nonempty (by decide), completion_pct_of_nonempty (by decide)]
      have hsubpres :
          List.Sublist
            (present_docs_of company_incorporation_required_docs (doc_types_of documents))
            (present_docs_of company_incorporation_required_docs (doc_types_of (documents ++ [d]))) := by
        unfold present_docs_of
        rw [if_neg (by decide), if_neg (by decide)]
        apply List.monotone_filter_right
        intro a ha
        simp only [List.elem_eq_mem, decide_eq_true_eq] at ha ⊢
        exact (hdt' a).2 (Or.inl ha)
      have hdp' : d.document_type ∈
          present_docs_of company_incorporation_required_docs (doc_types_of (documents ++ [d])) :=
        (mem_present_docs_of (by decide) _).2 ⟨hinR, (hdt' _).2 (Or.inr rfl)⟩
      have hdp : d.document_type ∉
          present_docs_of company_incorporation_required_docs (doc_types_of documents) :=
        fun hx => hnotdt ((mem_present_docs_of (by decide) _).1 hx).2
      have hplen :
          (present_docs_of company_incorporation_required_docs (doc_types_of documents)).length <
            (present_docs_of company_incorporation_required_docs (doc_types_of (documents ++ [d]))).length := by
        refine lt_of_le_of_ne hsubpres.length_le ?_
        intro hlen
        rw [← hsubpres.eq_of_length hlen] at hdp'
        exact hdp hdp'
      have hcast :
          ((present_docs_of company_incorporation_required_docs (doc_types_of documents)).length : ℚ) <
            ((present_docs_of company_incorporation_required_docs (doc_types_of (documents ++ [d]))).length : ℚ) := by
        exact_mod_cast hplen
      have h5 : ((company_incorporation_required_docs.length : ℕ) : ℚ) = 5 := by
        norm_num [company_incorporation_required_docs]
      simp only [h5]
      linarith
  · -- adding a present-typed document
    intro documents validations d hmem
    rw [report_present_eq] at hmem
    have hd : d.document_type ∈ doc_types_of documents := by
      by_cases hip : identify_process (doc_types_of documents) = true
      · have hsel : selected_required_docs documents = company_incorporation_required_docs := by
          simp [selected_required_docs, hip]
        rw [hsel] at hmem
        exact ((mem_present_docs_of (by decide) _).1 hmem).2
      · have hb : identify_process (doc_types_of documents) = false := by simpa using hip
        have hsel : selected_required_docs documents = [] := by
          simp [selected_required_docs, hb]
        rw [hsel] at hmem
        exact hmem
    have hdt' : ∀ x, x ∈ doc_types_of (documents ++ [d]) ↔ x ∈ doc_types_of documents := by
      intro x
      rw [mem_doc_types_of_append]
      constructor
      · rintro (h | ⟨h, _⟩)
        · exact h
        · rwa [h]
      · exact Or.inl
    have hseleq : selected_required_docs (documents ++ [d]) = selected_required_docs documents := by
      unfold selected_required_docs
      rw [identify_process_congr hdt']
    rw [report_completion_eq, report_completion_eq, hseleq]
    exact completion_pct_congr hdt'
  · -- unchanged process profile
    intro documents validations d hp
    rw [report_process_type_eq, report_process_type_eq] at hp
    have hipeq : identify_process (doc_types_of (documents ++ [d])) =
        identify_process (doc_types_of documents) := by
      cases hb1 : identify_process (doc_types_of (documents ++ [d])) <;>
        cases hb2 : identify_process (doc_types_of documents) <;> try rfl
      · rw [hb1, hb2] at hp
        simp at hp
      · rw [hb1, hb2] at hp
        simp at hp
    by_cases hip : identify_process (doc_types_of documents) = true
    · have hsel : selected_required_docs documents = company_incorporation_required_docs := by
        simp [selected_required_docs, hip]
      have hsel' : selected_required_docs (documents ++ [d]) =
          company_incorporation_required_docs := by
        simp [selected_required_docs, hipeq, hip]
      rw [report_completion_eq, report_completion_eq, hsel, hsel',
        completion_pct_of_nonempty (by decide), completion_pct_of_nonempty (by decide)]
      have hsubpres :
          List.Sublist
            (present_docs_of company_incorporation_required_docs (doc_types_of documents))
            (present_docs_of company_incorporation_required_docs (doc_types_of (documents ++ [d]))) := by
        unfold present_docs_of
        rw [if_neg (by decide), if_neg (by decide)]
        apply List.monotone_filter_right
        intro a ha
        simp only [List.elem_eq_mem, decide_eq_true_eq] at ha ⊢
        exact mem_doc_types_of_append.2 (Or.inl ha)
      have hcast :
          ((present_docs_of company_incorporation_required_docs (doc_types_of documents)).length : ℚ) ≤
            ((present_docs_of company_incorporation_required_docs (doc_types_of (documents ++ [d]))).length : ℚ) := by
        exact_mod_cast hsubpres.length_le
      have h5 : ((company_incorporation_required_docs.length : ℕ) : ℚ) = 5 := by
        norm_num [company_incorporation_required_docs]
      simp only [h5]
      linarith
    · have hb : identify_process (doc_types_of documents) = false := by simpa using hip
      have hsel : selected_required_docs documents = [] := by
        simp [selected_required_docs, hb]
      have hsel' : selected_required_docs (documents ++ [d]) = [] := by
        simp [selected_required_docs, hipeq, hb]
      rw [report_completion_eq, report_completion_eq, hsel, hsel']
      exact le_refl _

/-- C7 witness: on the two-document example batch, adding a document typed
incorporation_form (a missing type there) strictly raises the completion
percentage. -/
theorem c7_witness :
    (generate_compliance_report twoDocBatch []).completeness.completion_percentage <
      (generate_compliance_report (twoDocBatch ++
        [{ file_name := "i.docx", text_content := [],
           document_type := "incorporation_form" }]) []).completeness.completion_percentage :=
  (c7_monotonicity.1 twoDocBatch []
    { file_name := "i.docx", text_content := [],
      document_type := "incorporation_form" } (by decide)).2

/-- The classifier only ever returns a catalog type or the unknown marker. -/
theorem identify_type_mem_or_unknown (text : DocText) :
    identifyDocumentType text = "unknown" ∨ identifyDocumentType text ∈ typeOrder := by
  unfold identifyDocumentType
  dsimp only
  cases hc : (docTypePatterns.map (fun p =>
      (p.1, (p.2.filter (fun kw => containsSub kw (lowerText text))).length))).filter
      (fun q => decide (0 < q.2)) with
  | nil => exact Or.inl rfl
  | cons a ft =>
    right
    have hfind := find?_max_foldl a ft
    have hmem : (ft.foldl (fun best q => if best.2 < q.2 then q else best) a) ∈ a :: ft :=
      List.mem_of_find?_eq_some hfind
    rw [← hc] at hmem
    have hmem2 := List.mem_of_mem_filter hmem
    rw [List.mem_map] at hmem2
    obtain ⟨p, hp, hep⟩ := hmem2
    have h1 : maxByGet (a :: ft) =
        (ft.foldl (fun best q => if best.2 < q.2 then q else best) a).1 := rfl
    rw [h1, ← hep]
    exact (by decide : ∀ q ∈ docTypePatterns, q.1 ∈ typeOrder) p hp

/-- C10: when every document type in the batch was produced by the
classifier and the company-incorporation profile is selected,
register_members_directors is always among the missing documents (the
classifier has no keyword entry for it), so completion never exceeds 80
and the overall status is never ready_for_submission. -/
theorem c10_register_never_observed (documents : List DocInfo)
    (validations : List ValidationResult)
    (hcls : ∀ d ∈ documents, ∃ t : DocText, d.document_type = identifyDocumentType t)
    (hproc : (generate_compliance_report documents validations).process_type =
      "company_incorporation") :
    "register_members_directors" ∈
      (generate_compliance_report documents validations).completeness.missing_documents ∧
    (generate_compliance_report documents validations).completeness.completion_percentage ≤ 80 ∧
    (generate_compliance_report documents validations).overall_status ≠
      "ready_for_submission" := by
  have hip : identify_process (doc_types_of documents) = true := by
    by_contra h
    have hb : identify_process (doc_types_of documents) = false := by simpa using h
    rw [report_process_type_eq, hb] at hproc
    simp at hproc
  have hsel : selected_required_docs documents = company_incorporation_required_docs := by
    simp [selected_required_docs, hip]
  have hreg : "register_members_directors" ∉ doc_types_of documents := by
    intro hmem
    rw [mem_doc_types_of] at hmem
    obtain ⟨⟨d, hd, hdt⟩, hu⟩ := hmem
    obtain ⟨t, ht⟩ := hcls d hd
    rw [ht] at hdt
    rcases identify_type_mem_or_unknown t with h | h
    · rw [h] at hdt
      exact absurd hdt (by decide)
    · rw [hdt] at h
      exact absurd h (by decide)
  have hm : "register_members_directors" ∈
      missing_docs_of company_incorporation_required_docs (doc_types_of documents) :=
    (mem_missing_docs_of (by decide) _).2 ⟨by decide, hreg⟩
  refine ⟨by rw [report_missing_eq, hsel]; exact hm, ?_, ?_⟩
  · rw [report_completion_eq, hsel, completion_pct_of_nonempty (by decide)]
    have hsub : List.Sublist
        (present_docs_of company_incorporation_required_docs (doc_types_of documents))
        (company_incorporation_required_docs.filter
          (fun x => decide (x ≠ "register_members_directors"))) := by
      unfold present_docs_of
      rw [if_neg (by decide)]
      apply List.monotone_filter_right
      intro a ha
      simp only [List.elem_eq_mem, decide_eq_true_eq] at ha ⊢
      intro heq
      rw [heq] at ha
      exact hreg ha
    have hlen : (present_docs_of company_incorporation_required_docs
        (doc_types_of documents)).length ≤ 4 :=
      le_trans hsub.length_le (by decide)
    have hcast : ((present_docs_of company_incorporation_required_docs
        (doc_types_of documents)).length : ℚ) ≤ 4 := by
      exact_mod_cast hlen
    have h5 : ((company_incorporation_required_docs.length : ℕ) : ℚ) = 5 := by
      norm_num [company_incorporation_required_docs]
    rw [h5]
    linarith
  · rw [report_status_eq, hsel]
    have hne : missing_docs_of company_incorporation_required_docs
        (doc_types_of documents) ≠ [] := List.ne_nil_of_mem hm
    unfold determine_status
    split_ifs with h1 h2 h3
    · decide
    · decide
    · decide
    · exact absurd (Or.inr hne) h3

/-- A document record whose type field is literally the classifier output
on the text "articles of association". -/
def classifiedAoaDoc : DocInfo :=
  { file_name := "a.docx", text_content := "articles of association".data,
    document_type := identifyDocumentType "articles of association".data }

/-- C10 witness: on a batch holding one classifier-typed
articles-of-association document, register_members_directors is missing. -/
theorem c10_witness :
    "register_members_directors" ∈
      (generate_compliance_report [classifiedAoaDoc] []).completeness.missing_documents :=
  (c10_register_never_observed [classifiedAoaDoc] []
    (fun d hd => by
      rw [List.mem_singleton] at hd
      subst hd
      exact ⟨"articles of association".data, rfl⟩)
    (by decide)).1
